import Mathlib

/-!
Shallow embedding of the audio-settings subsystem of `app/routers/audio.py`.

The relational store is modelled as a `DB` value holding the three tables
(`AudioTracks`, `UserAudioTracks`, `UserSettings`) as lists of rows, in table
order; `next_track_id` models the autoincrement id column of `AudioTracks`.
Each handler/helper of the source becomes a pure function from `DB` to `DB`
(or `Option DB` when the Python code can raise: the `None.id` attribute fault
in `create_new_user_audio_record`, and the `None / 100` type fault in
`handle_vol`, are modelled as `none`).  Volumes travel as `Option Int` in the
store (the form posts optional integers) and as `Option ℚ` once
`handle_vol` has divided by 100.
-/

/-- `SoundKind` enum of the source: `SONG = 1`, `SFX = 0`. -/
inductive SoundKind where
  | SONG
  | SFX
deriving DecidableEq, Repr

/-- `.value` of the enum member, as used for the `is_music` column. -/
def SoundKind.value : SoundKind → Nat
  | .SONG => 1
  | .SFX => 0

/-- The `Sound` class: kind, name (file stem) and source path. -/
structure Sound where
  sound_kind : SoundKind
  name : String
  src : String
deriving DecidableEq, Repr

/-- A row of the `AudioTracks` table: `{id, title, is_music}`. -/
structure AudioTracks where
  id : Nat
  title : String
  is_music : Nat
deriving DecidableEq, Repr

/-- A row of the `UserAudioTracks` join table: `{user_id, track_id}`. -/
structure UserAudioTracks where
  user_id : Nat
  track_id : Nat
deriving DecidableEq, Repr

/-- A row of the `UserSettings` table. -/
structure UserSettings where
  user_id : Nat
  music_on : Bool
  music_vol : Option Int
  sfx_on : Bool
  sfx_vol : Option Int
deriving DecidableEq, Repr

/-- The acting user; only `user_id` is consulted by this router. -/
structure User where
  user_id : Nat
deriving DecidableEq, Repr

/-- The relational store: the three tables in row order plus the
autoincrement counter for `AudioTracks.id`. -/
structure DB where
  audio_tracks : List AudioTracks
  user_audio_tracks : List UserAudioTracks
  user_settings : List UserSettings
  next_track_id : Nat
deriving DecidableEq, Repr

/-- The dict `user_choices` built in `get_choices` from the posted form
fields (`music_on`/`sfx_on` are required booleans, volumes optional ints). -/
structure UserChoices where
  music_on : Bool
  music_vol : Option Int
  sfx_on : Bool
  sfx_vol : Option Int
deriving DecidableEq, Repr

/-- `DEFAULT_MUSIC = ["GASTRONOMICA.mp3"]`. -/
def DEFAULT_MUSIC : List String := ["GASTRONOMICA.mp3"]

/-- `DEFAULT_MUSIC_VOL = 0.5`. -/
def DEFAULT_MUSIC_VOL : ℚ := 0.5

/-- `DEFAULT_SFX = "click_1.wav"`. -/
def DEFAULT_SFX : String := "click_1.wav"

/-- `DEFAULT_SFX_VOL = 0.5`. -/
def DEFAULT_SFX_VOL : ℚ := 0.5

/-- `add_sound`: look up a catalog row by title; if absent, insert a new
`AudioTracks` row (autoincremented id) and commit. -/
def add_sound (db : DB) (sound : Sound) : DB :=
  match db.audio_tracks.find? (fun t => t.title == sound.name) with
  | some _ => db
  | none =>
      { db with
        audio_tracks :=
          db.audio_tracks ++ [⟨db.next_track_id, sound.name, sound.sound_kind.value⟩],
        next_track_id := db.next_track_id + 1 }

/-- `init_audio_tracks`: run `add_sound` over the discovered sounds in order. -/
def init_audio_tracks (db : DB) (sounds : List Sound) : DB :=
  sounds.foldl add_sound db

/-- `choice.split(".", maxsplit=1)[0]`: everything before the first `"."`
(the whole string when it has no `"."`). -/
def choiceStem (choice : String) : String :=
  String.mk (choice.data.takeWhile (fun c => c != '.'))

/-- `create_new_user_audio_record`: strip the extension from the submitted
choice, resolve the stem to a catalog row by title, and insert a
`UserAudioTracks` row.  When the title lookup returns no row, the Python
code evaluates `None.id` and raises `AttributeError`; that fault is `none`. -/
def create_new_user_audio_record (db : DB) (choice : String) (user_id : Nat) :
    Option DB :=
  let c := choiceStem choice
  match db.audio_tracks.find? (fun t => t.title == c) with
  | none => none
  | some track =>
      some { db with
             user_audio_tracks := db.user_audio_tracks ++ [⟨user_id, track.id⟩] }

/-- The `for track in music_choices` loop of `handle_user_audio_tracks`:
insert a record per choice, propagating the lookup fault. -/
def create_records (db : DB) (user_id : Nat) (choices : List String) :
    Option DB :=
  match choices with
  | [] => some db
  | c :: rest =>
      match create_new_user_audio_record db c user_id with
      | none => none
      | some db' => create_records db' user_id rest

/-- `handle_user_audio_tracks`: delete every existing selection row of the
user, then insert one row per requested music choice and one for the sfx
choice.  `if music_choices:` / `if sfx_choice:` are Python truthiness tests:
`None` and the empty list/string skip the corresponding insert. -/
def handle_user_audio_tracks (db : DB) (user_id : Nat)
    (music_choices : Option (List String)) (sfx_choice : Option String) :
    Option DB :=
  let db1 : DB :=
    { db with
      user_audio_tracks :=
        db.user_audio_tracks.filter (fun r => r.user_id != user_id) }
  match create_records db1 user_id (music_choices.getD []) with
  | none => none
  | some db2 =>
      match sfx_choice with
      | none => some db2
      | some s =>
          if s.isEmpty then some db2
          else create_new_user_audio_record db2 s user_id

/-- `handle_audio_settings`: upsert the `UserSettings` row of the user —
insert a fresh row when none exists, else field-wise update every row with
that `user_id`. -/
def handle_audio_settings (db : DB) (user_id : Nat)
    (user_choices : UserChoices) : DB :=
  match db.user_settings.find? (fun r => r.user_id == user_id) with
  | none =>
      { db with
        user_settings :=
          db.user_settings ++
            [⟨user_id, user_choices.music_on, user_choices.music_vol,
              user_choices.sfx_on, user_choices.sfx_vol⟩] }
  | some audio_settings =>
      { db with
        user_settings :=
          db.user_settings.map (fun r =>
            if r.user_id == audio_settings.user_id then
              ⟨r.user_id, user_choices.music_on, user_choices.music_vol,
               user_choices.sfx_on, user_choices.sfx_vol⟩
            else r) }

/-- `save_audio_settings`: settings upsert, then selection replacement. -/
def save_audio_settings (db : DB) (music_choices : Option (List String))
    (sfx_choice : Option String) (user_choices : UserChoices) (user : User) :
    Option DB :=
  handle_user_audio_tracks
    (handle_audio_settings db user.user_id user_choices)
    user.user_id music_choices sfx_choice

/-- `get_tracks`: the user's chosen track ids, joined against the catalog —
music rows (in table order, `".mp3"` appended) and the first sfx row
(`".wav"` appended). -/
def get_tracks (db : DB) (user_id : Nat) : List String × Option String :=
  let chosen_track_ids :=
    (db.user_audio_tracks.filter (fun r => r.user_id == user_id)).map
      (fun r => r.track_id)
  let tracks :=
    db.audio_tracks.filter
      (fun t => chosen_track_ids.contains t.id && t.is_music == 1)
  let sfx :=
    db.audio_tracks.find?
      (fun t => chosen_track_ids.contains t.id && t.is_music == 0)
  let playlist := tracks.map (fun t => t.title ++ ".mp3")
  let sfx_choice := sfx.map (fun t => t.title ++ ".wav")
  (playlist, sfx_choice)

/-- The 6-tuple returned by `get_audio_settings`. -/
structure AudioSettingsResult where
  music_on : Option Bool
  playlist : List String
  music_vol : Option Int
  sfx_on : Option Bool
  sfx_choice : Option String
  sfx_vol : Option Int
deriving DecidableEq, Repr

/-- `get_audio_settings`: tracks via `get_tracks`, flags/volumes from the
`UserSettings` row when it exists, else `None`. -/
def get_audio_settings (db : DB) (user_id : Nat) : AudioSettingsResult :=
  let (playlist, sfx_choice) := get_tracks db user_id
  match db.user_settings.find? (fun r => r.user_id == user_id) with
  | none => ⟨none, playlist, none, none, sfx_choice, none⟩
  | some s =>
      ⟨some s.music_on, playlist, s.music_vol, some s.sfx_on, sfx_choice,
       s.sfx_vol⟩

/-- `handle_vol`: `vol /= 100` when the flag is on, passthrough otherwise.
With the flag on and `vol = None` the Python division raises `TypeError`;
that fault is the outer `none`. -/
def handle_vol (is_audio_on : Bool) (vol : Option ℚ) : Option (Option ℚ) :=
  if is_audio_on then
    match vol with
    | none => none
    | some v => some (some (v / 100))
  else
    some vol

/-- The JSON object built at the end of `start_audio`. -/
structure StartAudioResult where
  music_on : Option Bool
  playlist : List String
  music_vol : Option ℚ
  sfx_on : Option Bool
  sfx_choice : String
  sfx_vol : Option ℚ
deriving DecidableEq, Repr

/-- The tail of `start_audio` from `if not playlist:` down: substitute the
fixed default playlist/volume when the playlist is empty, and the fixed
default sfx/volume when no sfx is chosen, then build the JSON object. -/
def apply_audio_defaults (r : AudioSettingsResult)
    (music_vol sfx_vol : Option ℚ) : StartAudioResult :=
  let (playlist, music_vol) :=
    if r.playlist.isEmpty then (DEFAULT_MUSIC, some DEFAULT_MUSIC_VOL)
    else (r.playlist, music_vol)
  let (chosen_sfx, chosen_sfx_vol) :=
    match r.sfx_choice with
    | none => (DEFAULT_SFX, some DEFAULT_SFX_VOL)
    | some s => (s, sfx_vol)
  ⟨r.music_on, playlist, music_vol, r.sfx_on, chosen_sfx, chosen_sfx_vol⟩

/-- `start_audio`: read the settings, normalize volumes when the settings
row exists (`music_on is not None`), then substitute the fixed defaults via
`apply_audio_defaults`.  Stored integer volumes are read as rationals so
that the division result is exact. -/
def start_audio (db : DB) (user_id : Nat) : Option StartAudioResult :=
  let r := get_audio_settings db user_id
  let mv0 : Option ℚ := r.music_vol.map (fun v => (v : ℚ))
  let sv0 : Option ℚ := r.sfx_vol.map (fun v => (v : ℚ))
  let volumes : Option (Option ℚ × Option ℚ) :=
    match r.music_on with
    | none => some (mv0, sv0)
    | some mOn =>
        match handle_vol mOn mv0 with
        | none => none
        | some mv =>
            match handle_vol (r.sfx_on.getD false) sv0 with
            | none => none
            | some sv => some (mv, sv)
  match volumes with
  | none => none
  | some (music_vol, sfx_vol) =>
      some (apply_audio_defaults r music_vol sfx_vol)

/-! ### Lemmas about `choiceStem` -/

/-- The stem never contains a dot. -/
theorem choiceStem_no_dot (s : String) : '.' ∉ (choiceStem s).data := by
  intro h
  have := List.mem_takeWhile_imp h
  simp at this

/-- A dot-free string is its own stem. -/
theorem choiceStem_eq_self {s : String} (h : '.' ∉ s.data) : choiceStem s = s := by
  unfold choiceStem
  have : s.data.takeWhile (fun c => c != '.') = s.data := by
    rw [List.takeWhile_eq_self_iff]
    intro x hx
    simp only [bne_iff_ne, ne_eq]
    intro hxe
    exact h (hxe ▸ hx)
  rw [this]

theorem takeWhile_ne_dot_append (l r : List Char) (h : r.head? = some '.') :
    (l ++ r).takeWhile (fun c => c != '.') = l.takeWhile (fun c => c != '.') := by
  induction l with
  | nil =>
      simp only [List.nil_append, List.takeWhile_nil]
      cases r with
      | nil => simp
      | cons x xs =>
          simp only [List.head?_cons, Option.some_inj] at h
          subst h
          simp [List.takeWhile_cons]
  | cons c cs ih =>
      simp only [List.cons_append, List.takeWhile_cons]
      by_cases hc : (c != '.') = true
      · simp [hc, ih]
      · simp [hc]

/-- Appending a suffix that starts with a dot does not change the stem. -/
theorem choiceStem_append (s e : String) (h : e.data.head? = some '.') :
    choiceStem (s ++ e) = choiceStem s := by
  unfold choiceStem
  rw [String.data_append, takeWhile_ne_dot_append s.data e.data h]

/-! ### Lemmas about `add_sound` / `init_audio_tracks` -/

/-- Some catalog row carries this title. -/
def hasTitle (db : DB) (n : String) : Prop :=
  ∃ t ∈ db.audio_tracks, t.title = n

theorem add_sound_tracks_mono {db : DB} {s : Sound} {t : AudioTracks}
    (h : t ∈ db.audio_tracks) : t ∈ (add_sound db s).audio_tracks := by
  unfold add_sound
  cases hf : db.audio_tracks.find? (fun t => t.title == s.name) with
  | some _ => exact h
  | none => simp [h]

theorem hasTitle_add_sound {db : DB} {s : Sound} {n : String}
    (h : hasTitle db n) : hasTitle (add_sound db s) n := by
  obtain ⟨t, ht, hn⟩ := h
  exact ⟨t, add_sound_tracks_mono ht, hn⟩

theorem hasTitle_add_sound_self (db : DB) (s : Sound) :
    hasTitle (add_sound db s) s.name := by
  unfold add_sound
  cases hf : db.audio_tracks.find? (fun t => t.title == s.name) with
  | some t =>
      have hp := List.find?_some hf
      have hm := List.mem_of_find?_eq_some hf
      simp only [beq_iff_eq] at hp
      exact ⟨t, hm, hp⟩
  | none =>
      refine ⟨⟨db.next_track_id, s.name, s.sound_kind.value⟩, ?_, rfl⟩
      simp

theorem add_sound_eq_of_hasTitle {db : DB} {s : Sound}
    (h : hasTitle db s.name) : add_sound db s = db := by
  unfold add_sound
  cases hf : db.audio_tracks.find? (fun t => t.title == s.name) with
  | some _ => rfl
  | none =>
      obtain ⟨t, ht, hn⟩ := h
      rw [List.find?_eq_none] at hf
      exact absurd (by simp [hn]) (hf t ht)

theorem hasTitle_init_audio_tracks {db : DB} {sounds : List Sound} {n : String}
    (h : hasTitle db n) : hasTitle (init_audio_tracks db sounds) n := by
  induction sounds generalizing db with
  | nil => exact h
  | cons x xs ih => exact ih (hasTitle_add_sound h)

theorem init_audio_tracks_cons (db : DB) (x : Sound) (xs : List Sound) :
    init_audio_tracks db (x :: xs) = init_audio_tracks (add_sound db x) xs := rfl

theorem hasTitle_init_audio_tracks_all {sounds : List Sound} {s : Sound}
    (hs : s ∈ sounds) (db : DB) :
    hasTitle (init_audio_tracks db sounds) s.name := by
  induction sounds generalizing db with
  | nil => cases hs
  | cons x xs ih =>
      rw [init_audio_tracks_cons]
      rcases List.mem_cons.mp hs with h | h
      · subst h
        exact hasTitle_init_audio_tracks (hasTitle_add_sound_self db s)
      · exact ih h (add_sound db x)

/-- Claim C3: running the catalog sync a second time on the same sound set
leaves the store (in particular the `AudioTracks` table) unchanged: every
name is already present, so `add_sound` finds each title and inserts
nothing. -/
theorem init_audio_tracks_idempotent (db : DB) (sounds : List Sound) :
    init_audio_tracks (init_audio_tracks db sounds) sounds =
      init_audio_tracks db sounds := by
  induction sounds generalizing db with
  | nil => rfl
  | cons x xs ih =>
      rw [init_audio_tracks_cons]
      have h1 : hasTitle (init_audio_tracks db (x :: xs)) x.name := by
        rw [init_audio_tracks_cons]
        exact hasTitle_init_audio_tracks (hasTitle_add_sound_self db x)
      rw [add_sound_eq_of_hasTitle h1, init_audio_tracks_cons]
      exact ih (add_sound db x)

/-! ### Characterization of the writer's selection replacement -/

/-- The selection rows a choice list resolves to against a fixed catalog
(`none` when some stem is unknown); `create_records` appends exactly these. -/
def resolvedRows (tracks : List AudioTracks) (uid : Nat) :
    List String → Option (List UserAudioTracks)
  | [] => some []
  | c :: cs =>
      match tracks.find? (fun t => t.title == choiceStem c) with
      | none => none
      | some t => (resolvedRows tracks uid cs).map (fun rows => ⟨uid, t.id⟩ :: rows)

/-- The choices `handle_user_audio_tracks` actually inserts: the music list
(when truthy) followed by the sfx choice (when truthy). -/
def allChoices (music_choices : Option (List String))
    (sfx_choice : Option String) : List String :=
  music_choices.getD [] ++
    (match sfx_choice with
     | none => []
     | some s => if s.isEmpty then [] else [s])

theorem create_records_eq (db : DB) (uid : Nat) (cs : List String) :
    create_records db uid cs =
      (resolvedRows db.audio_tracks uid cs).map
        (fun rows => { db with user_audio_tracks := db.user_audio_tracks ++ rows }) := by
  induction cs generalizing db with
  | nil => simp [create_records, resolvedRows]
  | cons c cs ih =>
      simp only [create_records, create_new_user_audio_record, resolvedRows]
      cases hf : db.audio_tracks.find? (fun t => t.title == choiceStem c) with
      | none => rfl
      | some t =>
          dsimp only
          rw [ih]
          cases hr : resolvedRows db.audio_tracks uid cs with
          | none => rfl
          | some rows => simp

theorem resolvedRows_append (tracks : List AudioTracks) (uid : Nat)
    (xs ys : List String) :
    resolvedRows tracks uid (xs ++ ys) =
      (resolvedRows tracks uid xs).bind
        (fun rx => (resolvedRows tracks uid ys).map (fun ry => rx ++ ry)) := by
  induction xs with
  | nil =>
      simp only [List.nil_append, resolvedRows, Option.some_bind]
      cases resolvedRows tracks uid ys <;> simp
  | cons c cs ih =>
      simp only [List.cons_append, resolvedRows]
      cases hf : tracks.find? (fun t => t.title == choiceStem c) with
      | none => rfl
      | some t =>
          dsimp only
          rw [List.append_eq, ih]
          cases h1 : resolvedRows tracks uid cs with
          | none => rfl
          | some rx =>
              cases h2 : resolvedRows tracks uid ys with
              | none => rfl
              | some ry => simp

theorem handle_user_audio_tracks_eq (db : DB) (uid : Nat)
    (music_choices : Option (List String)) (sfx_choice : Option String) :
    handle_user_audio_tracks db uid music_choices sfx_choice =
      (resolvedRows db.audio_tracks uid (allChoices music_choices sfx_choice)).map
        (fun rows =>
          { db with
            user_audio_tracks :=
              db.user_audio_tracks.filter (fun r => r.user_id != uid) ++ rows }) := by
  simp only [handle_user_audio_tracks, allChoices]
  rw [create_records_eq]
  rw [resolvedRows_append]
  dsimp only
  cases h1 : resolvedRows db.audio_tracks uid (music_choices.getD []) with
  | none => rfl
  | some r1 =>
      simp only [Option.map_some', Option.some_bind]
      cases sfx_choice with
      | none => simp [resolvedRows]
      | some s =>
          by_cases hs : s.isEmpty
          · simp [hs, resolvedRows]
          · simp only [hs, Bool.false_eq_true, if_false]
            simp only [create_new_user_audio_record, resolvedRows]
            cases hf : db.audio_tracks.find? (fun t => t.title == choiceStem s) with
            | none => simp
            | some t => simp [List.append_assoc]

theorem resolvedRows_user {tracks : List AudioTracks} {uid : Nat}
    {cs : List String} {rows : List UserAudioTracks}
    (h : resolvedRows tracks uid cs = some rows) :
    ∀ r ∈ rows, r.user_id = uid := by
  induction cs generalizing rows with
  | nil =>
      simp only [resolvedRows, Option.some_inj] at h
      subst h; intro r hr; cases hr
  | cons c cs ih =>
      simp only [resolvedRows] at h
      cases hf : tracks.find? (fun t => t.title == choiceStem c) with
      | none => rw [hf] at h; cases h
      | some t =>
          rw [hf] at h
          cases hr : resolvedRows tracks uid cs with
          | none => rw [hr] at h; cases h
          | some rows' =>
              rw [hr] at h
              simp only [Option.map_some', Option.some_inj] at h
              subst h
              intro r hrm
              rcases List.mem_cons.mp hrm with h | h
              · subst h; rfl
              · exact ih hr r h

theorem resolvedRows_mem {tracks : List AudioTracks} {uid : Nat}
    {cs : List String} {rows : List UserAudioTracks} {r : UserAudioTracks}
    (h : resolvedRows tracks uid cs = some rows) (hr : r ∈ rows) :
    ∃ c ∈ cs, ∃ t, tracks.find? (fun t => t.title == choiceStem c) = some t ∧
      r = ⟨uid, t.id⟩ := by
  induction cs generalizing rows with
  | nil =>
      simp only [resolvedRows, Option.some_inj] at h
      subst h; cases hr
  | cons c cs ih =>
      simp only [resolvedRows] at h
      cases hf : tracks.find? (fun t => t.title == choiceStem c) with
      | none => rw [hf] at h; cases h
      | some t =>
          rw [hf] at h
          cases hrr : resolvedRows tracks uid cs with
          | none => rw [hrr] at h; cases h
          | some rows' =>
              rw [hrr] at h
              simp only [Option.map_some', Option.some_inj] at h
              subst h
              rcases List.mem_cons.mp hr with h | h
              · exact ⟨c, List.mem_cons_self c cs, t, hf, h⟩
              · obtain ⟨c', hc', t', hf', he⟩ := ih hrr h
                exact ⟨c', List.mem_cons_of_mem c hc', t', hf', he⟩

theorem resolvedRows_eq_none {tracks : List AudioTracks} {uid : Nat}
    {cs : List String} {c : String} (hc : c ∈ cs)
    (hf : tracks.find? (fun t => t.title == choiceStem c) = none) :
    resolvedRows tracks uid cs = none := by
  induction cs with
  | nil => cases hc
  | cons c' cs ih =>
      simp only [resolvedRows]
      rcases List.mem_cons.mp hc with h | h
      · subst h; rw [hf]
      · cases tracks.find? (fun t => t.title == choiceStem c') with
        | none => rfl
        | some t => rw [ih h]; rfl

/-! ### The settings upsert leaves the other two tables untouched -/

theorem handle_audio_settings_audio_tracks (db : DB) (uid : Nat)
    (uc : UserChoices) :
    (handle_audio_settings db uid uc).audio_tracks = db.audio_tracks := by
  unfold handle_audio_settings
  cases db.user_settings.find? (fun r => r.user_id == uid) <;> rfl

theorem handle_audio_settings_user_audio_tracks (db : DB) (uid : Nat)
    (uc : UserChoices) :
    (handle_audio_settings db uid uc).user_audio_tracks =
      db.user_audio_tracks := by
  unfold handle_audio_settings
  cases db.user_settings.find? (fun r => r.user_id == uid) <;> rfl

/-- The whole writer, characterized: settings upsert plus
delete-all-then-insert of the resolved selection rows. -/
theorem save_audio_settings_eq (db : DB) (music_choices : Option (List String))
    (sfx_choice : Option String) (uc : UserChoices) (u : User) :
    save_audio_settings db music_choices sfx_choice uc u =
      (resolvedRows db.audio_tracks u.user_id
          (allChoices music_choices sfx_choice)).map
        (fun rows =>
          { handle_audio_settings db u.user_id uc with
            user_audio_tracks :=
              db.user_audio_tracks.filter (fun r => r.user_id != u.user_id)
                ++ rows }) := by
  unfold save_audio_settings
  rw [handle_user_audio_tracks_eq]
  simp only [handle_audio_settings_audio_tracks,
    handle_audio_settings_user_audio_tracks]

theorem save_audio_settings_some {db db' : DB}
    {music_choices : Option (List String)} {sfx_choice : Option String}
    {uc : UserChoices} {u : User}
    (h : save_audio_settings db music_choices sfx_choice uc u = some db') :
    db'.audio_tracks = db.audio_tracks ∧
      ∃ rows,
        resolvedRows db.audio_tracks u.user_id
            (allChoices music_choices sfx_choice) = some rows ∧
          db'.user_audio_tracks =
            db.user_audio_tracks.filter (fun r => r.user_id != u.user_id)
              ++ rows := by
  rw [save_audio_settings_eq] at h
  cases hr : resolvedRows db.audio_tracks u.user_id
      (allChoices music_choices sfx_choice) with
  | none => rw [hr] at h; cases h
  | some rows =>
      rw [hr] at h
      simp only [Option.map_some', Option.some_inj] at h
      subst h
      exact ⟨handle_audio_settings_audio_tracks db u.user_id uc, rows, rfl, rfl⟩

/-- Reading back a user's rows after the replacement yields exactly the
fresh rows. -/
theorem filter_user_rows (l rows : List UserAudioTracks) (uid : Nat)
    (h : ∀ r ∈ rows, r.user_id = uid) :
    (l.filter (fun r => r.user_id != uid) ++ rows).filter
        (fun r => r.user_id == uid) = rows := by
  rw [List.filter_append]
  have h1 : (l.filter (fun r => r.user_id != uid)).filter
      (fun r => r.user_id == uid) = [] := by
    rw [List.filter_eq_nil_iff]
    intro a ha
    have := (List.mem_filter.mp ha).2
    simp only [bne_iff_ne, ne_eq] at this
    simp [this]
  have h2 : rows.filter (fun r => r.user_id == uid) = rows := by
    rw [List.filter_eq_self]
    intro a ha
    simp [h a ha]
  rw [h1, h2, List.nil_append]

/-- Claim C2: the second of two consecutive saves fully determines the
user's selection rows — they are exactly the rows resolved from the second
request against the catalog, and coincide with what a single second save
from the initial state would have produced; nothing from the first save
survives unless re-requested. -/
theorem second_save_fully_replaces (db : DB) (u : User)
    (music1 music2 : Option (List String)) (sfx1 sfx2 : Option String)
    (uc1 uc2 : UserChoices) (db1 db2 : DB)
    (h1 : save_audio_settings db music1 sfx1 uc1 u = some db1)
    (h2 : save_audio_settings db1 music2 sfx2 uc2 u = some db2) :
    resolvedRows db.audio_tracks u.user_id (allChoices music2 sfx2) =
        some (db2.user_audio_tracks.filter (fun r => r.user_id == u.user_id)) ∧
      ∃ db2', save_audio_settings db music2 sfx2 uc2 u = some db2' ∧
        db2'.user_audio_tracks.filter (fun r => r.user_id == u.user_id) =
          db2.user_audio_tracks.filter (fun r => r.user_id == u.user_id) := by
  obtain ⟨htr1, _rows1, _hr1, _he1⟩ := save_audio_settings_some h1
  obtain ⟨_htr2, rows2, hr2, he2⟩ := save_audio_settings_some h2
  rw [htr1] at hr2
  have hu2 : ∀ r ∈ rows2, r.user_id = u.user_id := resolvedRows_user hr2
  have hfilter2 :
      db2.user_audio_tracks.filter (fun r => r.user_id == u.user_id) = rows2 := by
    rw [he2]
    exact filter_user_rows _ _ _ hu2
  refine ⟨by rw [hfilter2]; exact hr2, ?_⟩
  rw [save_audio_settings_eq, hr2]
  refine ⟨_, rfl, ?_⟩
  rw [hfilter2]
  exact filter_user_rows _ _ _ hu2

/-- Witness for C2: user 1 saves `["A"]`, then `["B"]`; afterwards their
selection rows are exactly the row for `"B"`, as a lone second save would
give. -/
theorem second_save_fully_replaces_witness :
    resolvedRows [⟨1, "A", 1⟩, ⟨2, "B", 1⟩] 1 (allChoices (some ["B"]) none) =
        some ((⟨[⟨1, "A", 1⟩, ⟨2, "B", 1⟩], [⟨1, 2⟩],
            [⟨1, true, some 40, true, some 40⟩], 3⟩ : DB).user_audio_tracks.filter
          (fun r => r.user_id == 1)) ∧
      ∃ db2', save_audio_settings ⟨[⟨1, "A", 1⟩, ⟨2, "B", 1⟩], [], [], 3⟩
          (some ["B"]) none ⟨true, some 40, true, some 40⟩ ⟨1⟩ = some db2' ∧
        db2'.user_audio_tracks.filter (fun r => r.user_id == 1) =
          (⟨[⟨1, "A", 1⟩, ⟨2, "B", 1⟩], [⟨1, 2⟩],
            [⟨1, true, some 40, true, some 40⟩], 3⟩ : DB).user_audio_tracks.filter
            (fun r => r.user_id == 1) :=
  second_save_fully_replaces ⟨[⟨1, "A", 1⟩, ⟨2, "B", 1⟩], [], [], 3⟩ ⟨1⟩
    (some ["A"]) (some ["B"]) none none
    ⟨true, some 40, true, some 40⟩ ⟨true, some 40, true, some 40⟩
    ⟨[⟨1, "A", 1⟩, ⟨2, "B", 1⟩], [⟨1, 1⟩],
      [⟨1, true, some 40, true, some 40⟩], 3⟩
    ⟨[⟨1, "A", 1⟩, ⟨2, "B", 1⟩], [⟨1, 2⟩],
      [⟨1, true, some 40, true, some 40⟩], 3⟩
    (by decide) (by decide)

/-- Claim C8: a save request containing a choice whose stem matches no
catalog title makes the writer fail (the `None.id` attribute fault) instead
of skipping or inserting the unknown title. -/
theorem unknown_title_save_fails (db : DB) (u : User)
    (music_choices : Option (List String)) (sfx_choice : Option String)
    (uc : UserChoices) (c : String)
    (hc : c ∈ music_choices.getD [] ∨ (sfx_choice = some c ∧ c ≠ ""))
    (hf : ∀ t ∈ db.audio_tracks, t.title ≠ choiceStem c) :
    save_audio_settings db music_choices sfx_choice uc u = none := by
  rw [save_audio_settings_eq]
  have hfind : db.audio_tracks.find? (fun t => t.title == choiceStem c) = none := by
    rw [List.find?_eq_none]
    intro t ht
    simp [hf t ht]
  have hmem : c ∈ allChoices music_choices sfx_choice := by
    unfold allChoices
    rcases hc with h | ⟨h, hne⟩
    · exact List.mem_append_left _ h
    · subst h
      apply List.mem_append_right
      have : c.isEmpty = false := by
        rcases h' : c.isEmpty with _ | _
        · rfl
        · exact absurd ((String.isEmpty_iff c).mp h') hne
      simp [this]
  rw [resolvedRows_eq_none hmem hfind]
  rfl

/-- Witness for C8: saving the unknown title `"X"` against a catalog that
only knows `"A"` makes the writer fail. -/
theorem unknown_title_save_fails_witness :
    save_audio_settings ⟨[⟨1, "A", 1⟩], [], [], 2⟩ (some ["X"]) none
        ⟨true, some 40, true, some 40⟩ ⟨1⟩ = none :=
  unknown_title_save_fails ⟨[⟨1, "A", 1⟩], [], [], 2⟩ ⟨1⟩ (some ["X"]) none
    ⟨true, some 40, true, some 40⟩ "X" (by decide) (by decide)

/-- Claim C7: a user with no `UserSettings` row and no selection rows reads
back unset flags and volumes, an empty playlist and no sfx choice. -/
theorem missing_settings_read (db : DB) (uid : Nat)
    (hs : ∀ r ∈ db.user_settings, r.user_id ≠ uid)
    (ht : ∀ r ∈ db.user_audio_tracks, r.user_id ≠ uid) :
    get_audio_settings db uid = ⟨none, [], none, none, none, none⟩ := by
  have h1 : db.user_settings.find? (fun r => r.user_id == uid) = none := by
    rw [List.find?_eq_none]
    intro r hr
    simp [hs r hr]
  have h2 : db.user_audio_tracks.filter (fun r => r.user_id == uid) = [] := by
    rw [List.filter_eq_nil_iff]
    intro r hr
    simp [ht r hr]
  unfold get_audio_settings get_tracks
  rw [h2, h1]
  simp

/-- Witness for C7: a store holding only another user's rows reads back as
fully unset for user 1. -/
theorem missing_settings_read_witness :
    get_audio_settings ⟨[⟨1, "A", 1⟩], [⟨2, 1⟩],
        [⟨2, true, some 40, true, some 40⟩], 2⟩ 1 =
      ⟨none, [], none, none, none, none⟩ :=
  missing_settings_read ⟨[⟨1, "A", 1⟩], [⟨2, 1⟩],
      [⟨2, true, some 40, true, some 40⟩], 2⟩ 1 (by decide) (by decide)

/-- Claim C5: with the flag on, a raw volume of 40 normalizes to `0.4`
(division by 100); with the flag off, any volume — including an absent one —
passes through unchanged. -/
theorem handle_vol_spec :
    handle_vol true (some 40) = some (some (0.4 : ℚ)) ∧
      (∀ v : ℚ, handle_vol true (some v) = some (some (v / 100))) ∧
      ∀ vol : Option ℚ, handle_vol false vol = some vol := by
  refine ⟨?_, fun v => rfl, fun vol => rfl⟩
  norm_num [handle_vol]

/-- Claim C9: `handle_vol` is not total — with the flag on and the volume
absent the division is a type fault — and a stored settings row with
`music_on` true but no `music_vol` makes the playback bootstrap fail. -/
theorem handle_vol_none_fault :
    handle_vol true none = none ∧
      ∀ (db : DB) (uid : Nat),
        (get_audio_settings db uid).music_on = some true →
        (get_audio_settings db uid).music_vol = none →
        start_audio db uid = none := by
  refine ⟨rfl, fun db uid hon hvol => ?_⟩
  simp only [start_audio]
  rw [hon, hvol]
  rfl

/-! ### Claim C6: the playback bootstrap's default substitution -/

theorem apply_audio_defaults_fields (r : AudioSettingsResult) (mv sv : Option ℚ) :
    (apply_audio_defaults r mv sv).playlist =
        (if r.playlist.isEmpty then DEFAULT_MUSIC else r.playlist) ∧
      (apply_audio_defaults r mv sv).music_vol =
        (if r.playlist.isEmpty then some DEFAULT_MUSIC_VOL else mv) ∧
      (apply_audio_defaults r mv sv).sfx_choice = r.sfx_choice.getD DEFAULT_SFX ∧
      (apply_audio_defaults r mv sv).sfx_vol =
        (match r.sfx_choice with
         | none => some DEFAULT_SFX_VOL
         | some _ => sv) := by
  unfold apply_audio_defaults
  cases hp : r.playlist.isEmpty <;> cases hsf : r.sfx_choice <;> simp [hp, hsf]

/-- Every successful `start_audio` result is `apply_audio_defaults` applied
to the reader's tuple and some pair of (possibly normalized) volumes; when
no settings row exists the volumes pass through unnormalized. -/
theorem start_audio_some_shape {db : DB} {uid : Nat} {res : StartAudioResult}
    (h : start_audio db uid = some res) :
    ∃ mv sv : Option ℚ,
      res = apply_audio_defaults (get_audio_settings db uid) mv sv ∧
        ((get_audio_settings db uid).music_on = none →
          mv = (get_audio_settings db uid).music_vol.map (fun v => (v : ℚ))) := by
  simp only [start_audio] at h
  cases hmo : (get_audio_settings db uid).music_on with
  | none =>
      rw [hmo] at h
      dsimp only at h
      exact ⟨_, _, (Option.some_inj.mp h).symm, fun _ => rfl⟩
  | some mOn =>
      rw [hmo] at h
      dsimp only at h
      cases h1 : handle_vol mOn
          ((get_audio_settings db uid).music_vol.map (fun v => (v : ℚ))) with
      | none => rw [h1] at h; cases h
      | some mv =>
          rw [h1] at h
          dsimp only at h
          cases h2 : handle_vol ((get_audio_settings db uid).sfx_on.getD false)
              ((get_audio_settings db uid).sfx_vol.map (fun v => (v : ℚ))) with
          | none => rw [h2] at h; cases h
          | some sv =>
              rw [h2] at h
              dsimp only at h
              exact ⟨mv, sv, (Option.some_inj.mp h).symm, fun hn => by cases hn⟩

/-- Claim C6: the bootstrap substitutes the fixed default playlist/volume
exactly when the reader's playlist came back empty, and the fixed default
sfx/volume exactly when the reader's sfx choice came back absent; with the
flags merely unset (no settings row) but a playlist present, the stored
volume passes through instead of a default. -/
theorem start_audio_defaults (db : DB) (uid : Nat) (res : StartAudioResult)
    (h : start_audio db uid = some res) :
    ((get_audio_settings db uid).playlist = [] →
        res.playlist = DEFAULT_MUSIC ∧ res.music_vol = some DEFAULT_MUSIC_VOL) ∧
      ((get_audio_settings db uid).playlist ≠ [] →
        res.playlist = (get_audio_settings db uid).playlist) ∧
      ((get_audio_settings db uid).sfx_choice = none →
        res.sfx_choice = DEFAULT_SFX ∧ res.sfx_vol = some DEFAULT_SFX_VOL) ∧
      (∀ s, (get_audio_settings db uid).sfx_choice = some s →
        res.sfx_choice = s) ∧
      ((get_audio_settings db uid).music_on = none →
        (get_audio_settings db uid).playlist ≠ [] →
        res.music_vol =
          (get_audio_settings db uid).music_vol.map (fun v => (v : ℚ))) := by
  obtain ⟨mv, sv, hres, hmv⟩ := start_audio_some_shape h
  obtain ⟨hp, hv, hsc, hsv⟩ :=
    apply_audio_defaults_fields (get_audio_settings db uid) mv sv
  subst hres
  refine ⟨fun he => ?_, fun hne => ?_, fun hn => ?_, fun s hs => ?_,
    fun hmo hne => ?_⟩
  · rw [hp, hv]
    simp [he]
  · rw [hp]
    simp [hne]
  · rw [hsc, hsv, hn]
    exact ⟨rfl, rfl⟩
  · rw [hsc, hs]
    rfl
  · rw [hv]
    simp only [List.isEmpty_eq_true, hne, if_false]
    exact hmv hmo

/-- Witness for C6 at a store with no rows at all: the result is the fixed
default playlist, sfx and volumes. -/
theorem start_audio_defaults_witness :
    ((get_audio_settings ⟨[], [], [], 0⟩ 1).playlist = [] →
        (StartAudioResult.mk none DEFAULT_MUSIC (some DEFAULT_MUSIC_VOL) none
            DEFAULT_SFX (some DEFAULT_SFX_VOL)).playlist = DEFAULT_MUSIC ∧
          (StartAudioResult.mk none DEFAULT_MUSIC (some DEFAULT_MUSIC_VOL) none
            DEFAULT_SFX (some DEFAULT_SFX_VOL)).music_vol =
            some DEFAULT_MUSIC_VOL) ∧
      ((get_audio_settings ⟨[], [], [], 0⟩ 1).playlist ≠ [] →
        (StartAudioResult.mk none DEFAULT_MUSIC (some DEFAULT_MUSIC_VOL) none
            DEFAULT_SFX (some DEFAULT_SFX_VOL)).playlist =
          (get_audio_settings ⟨[], [], [], 0⟩ 1).playlist) ∧
      ((get_audio_settings ⟨[], [], [], 0⟩ 1).sfx_choice = none →
        (StartAudioResult.mk none DEFAULT_MUSIC (some DEFAULT_MUSIC_VOL) none
            DEFAULT_SFX (some DEFAULT_SFX_VOL)).sfx_choice = DEFAULT_SFX ∧
          (StartAudioResult.mk none DEFAULT_MUSIC (some DEFAULT_MUSIC_VOL) none
            DEFAULT_SFX (some DEFAULT_SFX_VOL)).sfx_vol =
            some DEFAULT_SFX_VOL) ∧
      (∀ s, (get_audio_settings ⟨[], [], [], 0⟩ 1).sfx_choice = some s →
        (StartAudioResult.mk none DEFAULT_MUSIC (some DEFAULT_MUSIC_VOL) none
            DEFAULT_SFX (some DEFAULT_SFX_VOL)).sfx_choice = s) ∧
      ((get_audio_settings ⟨[], [], [], 0⟩ 1).music_on = none →
        (get_audio_settings ⟨[], [], [], 0⟩ 1).playlist ≠ [] →
        (StartAudioResult.mk none DEFAULT_MUSIC (some DEFAULT_MUSIC_VOL) none
            DEFAULT_SFX (some DEFAULT_SFX_VOL)).music_vol =
          (get_audio_settings ⟨[], [], [], 0⟩ 1).music_vol.map
            (fun v => (v : ℚ))) :=
  start_audio_defaults ⟨[], [], [], 0⟩ 1
    (StartAudioResult.mk none DEFAULT_MUSIC (some DEFAULT_MUSIC_VOL) none
      DEFAULT_SFX (some DEFAULT_SFX_VOL)) rfl

/-! ### Claim C4: selection uniqueness after one save -/

/-- When the requested stems are pairwise distinct and catalog ids are
unique, the resolved rows carry pairwise distinct track ids. -/
theorem resolvedRows_nodup_tid {tracks : List AudioTracks} {uid : Nat}
    {cs : List String} {rows : List UserAudioTracks}
    (hnodup : (tracks.map (fun t => t.id)).Nodup)
    (hstems : (cs.map choiceStem).Nodup)
    (h : resolvedRows tracks uid cs = some rows) :
    (rows.map (fun r => r.track_id)).Nodup := by
  induction cs generalizing rows with
  | nil =>
      simp only [resolvedRows, Option.some_inj] at h
      subst h
      exact List.nodup_nil
  | cons c cs ih =>
      simp only [resolvedRows] at h
      cases hf : tracks.find? (fun t => t.title == choiceStem c) with
      | none => rw [hf] at h; cases h
      | some t =>
          rw [hf] at h
          cases hrr : resolvedRows tracks uid cs with
          | none => rw [hrr] at h; cases h
          | some rows' =>
              rw [hrr] at h
              simp only [Option.map_some', Option.some_inj] at h
              subst h
              simp only [List.map_cons, List.nodup_cons]
              simp only [List.map_cons, List.nodup_cons] at hstems
              refine ⟨?_, ih hstems.2 hrr⟩
              intro hmem
              obtain ⟨r, hr, hrid⟩ := List.mem_map.mp hmem
              obtain ⟨c', hc', t', hf', he⟩ := resolvedRows_mem hrr hr
              have htid : t'.id = t.id := by rw [← hrid, he]
              have ht : t ∈ tracks := List.mem_of_find?_eq_some hf
              have ht' : t' ∈ tracks := List.mem_of_find?_eq_some hf'
              have : t' = t := List.inj_on_of_nodup_map hnodup ht' ht htid
              have htitle : t.title = choiceStem c := by
                have := List.find?_some hf
                simpa using this
              have htitle' : t'.title = choiceStem c' := by
                have := List.find?_some hf'
                simpa using this
              apply hstems.1
              have hmm : choiceStem c' ∈ cs.map choiceStem :=
                List.mem_map_of_mem choiceStem hc'
              rwa [← htitle', this, htitle] at hmm

/-- A list whose image under `f` has no duplicates keeps at most one
element at each `f`-value. -/
theorem length_filter_le_one_of_nodup_map {α β : Type} [BEq β] [LawfulBEq β]
    (l : List α) (f : α → β) (v : β) (h : (l.map f).Nodup) :
    (l.filter (fun x => f x == v)).length ≤ 1 := by
  induction l with
  | nil => simp
  | cons x xs ih =>
      simp only [List.map_cons, List.nodup_cons] at h
      by_cases hx : (f x == v) = true
      · have hempty : xs.filter (fun y => f y == v) = [] := by
          rw [List.filter_eq_nil_iff]
          intro y hy hyv
          apply h.1
          have : f y = v := by simpa using hyv
          have hfx : f x = v := by simpa using hx
          rw [show f x = f y from hfx.trans this.symm]
          exact List.mem_map_of_mem f hy
        simp [List.filter_cons, hx, hempty]
      · simp only [List.filter_cons, hx, if_false]
        exact ih h.2

/-- Claim C4 (counterexample): saving the repeated music list
`["A", "A"]` inserts two identical `(user, track)` selection rows, so a
single save does not guarantee at most one row per pair. -/
theorem selection_uniqueness_counterexample :
    save_audio_settings ⟨[⟨1, "A", 1⟩], [], [], 2⟩ (some ["A", "A"]) none
        ⟨true, some 40, true, some 40⟩ ⟨1⟩ =
      some ⟨[⟨1, "A", 1⟩], [⟨1, 1⟩, ⟨1, 1⟩],
            [⟨1, true, some 40, true, some 40⟩], 2⟩ ∧
      ¬ ((([⟨1, 1⟩, ⟨1, 1⟩] : List UserAudioTracks).filter
            (fun r => r.user_id == 1 && r.track_id == 1)).length ≤ 1) := by
  constructor
  · decide
  · decide

/-- Claim C4 (amended): after a single save whose requested choices have
pairwise-distinct stems (music list plus sfx choice), against a catalog with
unique ids, the user's selection rows contain at most one row per
`(user, track)` pair. -/
theorem selection_uniqueness_amended (db db' : DB) (u : User)
    (uc : UserChoices) (music_choices : Option (List String))
    (sfx_choice : Option String) (tid : Nat)
    (hnodup : (db.audio_tracks.map (fun t => t.id)).Nodup)
    (hstems : ((allChoices music_choices sfx_choice).map choiceStem).Nodup)
    (h : save_audio_settings db music_choices sfx_choice uc u = some db') :
    (db'.user_audio_tracks.filter
        (fun r => r.user_id == u.user_id && r.track_id == tid)).length ≤ 1 := by
  obtain ⟨-, rows, hr, he⟩ := save_audio_settings_some h
  rw [he, List.filter_append, List.length_append]
  have h1 : (db.user_audio_tracks.filter
      (fun r => r.user_id != u.user_id)).filter
      (fun r => r.user_id == u.user_id && r.track_id == tid) = [] := by
    rw [List.filter_eq_nil_iff]
    intro a ha
    have := (List.mem_filter.mp ha).2
    simp only [bne_iff_ne, ne_eq] at this
    simp [this]
  rw [h1]
  simp only [List.length_nil, Nat.zero_add]
  have hcongr : rows.filter
      (fun r => r.user_id == u.user_id && r.track_id == tid) =
      rows.filter (fun r => r.track_id == tid) := by
    apply List.filter_congr
    intro r hrm
    simp [resolvedRows_user hr r hrm]
  rw [hcongr]
  exact length_filter_le_one_of_nodup_map rows (fun r => r.track_id) tid
    (resolvedRows_nodup_tid hnodup hstems hr)

/-- Witness for the amended C4 at a concrete save of one music track and
one sfx. -/
theorem selection_uniqueness_amended_witness :
    ((⟨[⟨1, "A", 1⟩, ⟨2, "S", 0⟩], [⟨1, 1⟩, ⟨1, 2⟩],
        [⟨1, true, some 40, true, some 40⟩], 3⟩ : DB).user_audio_tracks.filter
      (fun r => r.user_id == 1 && r.track_id == 1)).length ≤ 1 :=
  selection_uniqueness_amended
    ⟨[⟨1, "A", 1⟩, ⟨2, "S", 0⟩], [], [], 3⟩
    ⟨[⟨1, "A", 1⟩, ⟨2, "S", 0⟩], [⟨1, 1⟩, ⟨1, 2⟩],
      [⟨1, true, some 40, true, some 40⟩], 3⟩
    ⟨1⟩ ⟨true, some 40, true, some 40⟩ (some ["A"]) (some "S") 1
    (by decide) (by decide) (by decide)

/-! ### Claim C1: round-trip save/read -/

/-- Claim C1 (counterexample): the literal claim fixes the playlist order to
the request order, but `get_tracks` lists music in catalog order; with the
catalog holding `"B"` before `"A"`, saving `["A", "B"]` reads back
`["B.mp3", "A.mp3"]`. -/
theorem roundtrip_order_counterexample :
    (save_audio_settings ⟨[⟨1, "B", 1⟩, ⟨2, "A", 1⟩, ⟨3, "C", 0⟩], [], [], 4⟩
        (some ["A", "B"]) (some "C") ⟨true, some 40, true, some 40⟩ ⟨1⟩).map
        (fun db' => get_tracks db' 1) =
      some (["B.mp3", "A.mp3"], some "C.wav") ∧
      (["B.mp3", "A.mp3"] : List String) ≠ ["A.mp3", "B.mp3"] := by
  constructor
  · decide
  · decide

/-- Claim C1 (amended): with `A`, `B` music titles and `C` a sound-effect
title, all present in a catalog with unique ids, all dot-free and `A` and
`B` distinct, the save succeeds and the reader returns the sfx choice
`C ++ ".wav"` and a playlist holding exactly `A ++ ".mp3"` and
`B ++ ".mp3"`, in catalog order (a permutation of the requested pair). -/
theorem roundtrip_save_read (db : DB) (u : User) (uc : UserChoices)
    (A B C : String) (ta tb tc : AudioTracks)
    (hnodup : (db.audio_tracks.map (fun t => t.id)).Nodup)
    (hA : db.audio_tracks.find? (fun t => t.title == A) = some ta)
    (hB : db.audio_tracks.find? (fun t => t.title == B) = some tb)
    (hC : db.audio_tracks.find? (fun t => t.title == C) = some tc)
    (hta : ta.is_music = 1) (htb : tb.is_music = 1) (htc : tc.is_music = 0)
    (hAd : '.' ∉ A.data) (hBd : '.' ∉ B.data) (hCd : '.' ∉ C.data)
    (hAB : A ≠ B) (hCne : C ≠ "") :
    ∃ db', save_audio_settings db (some [A, B]) (some C) uc u = some db' ∧
      (get_tracks db' u.user_id).1.Perm [A ++ ".mp3", B ++ ".mp3"] ∧
      (get_tracks db' u.user_id).2 = some (C ++ ".wav") := by
  have hsA : choiceStem A = A := choiceStem_eq_self hAd
  have hsB : choiceStem B = B := choiceStem_eq_self hBd
  have hsC : choiceStem C = C := choiceStem_eq_self hCd
  have htA : ta.title = A := by simpa using List.find?_some hA
  have htB : tb.title = B := by simpa using List.find?_some hB
  have htC : tc.title = C := by simpa using List.find?_some hC
  have htaM : ta ∈ db.audio_tracks := List.mem_of_find?_eq_some hA
  have htbM : tb ∈ db.audio_tracks := List.mem_of_find?_eq_some hB
  have htcM : tc ∈ db.audio_tracks := List.mem_of_find?_eq_some hC
  have hCempty : C.isEmpty = false := by
    rcases h' : C.isEmpty with _ | _
    · rfl
    · exact absurd ((String.isEmpty_iff C).mp h') hCne
  have hall : allChoices (some [A, B]) (some C) = [A, B, C] := by
    simp [allChoices, hCempty]
  have hres : resolvedRows db.audio_tracks u.user_id [A, B, C] =
      some [⟨u.user_id, ta.id⟩, ⟨u.user_id, tb.id⟩, ⟨u.user_id, tc.id⟩] := by
    simp only [resolvedRows, hsA, hsB, hsC, hA, hB, hC, Option.map_some']
  have hsave : save_audio_settings db (some [A, B]) (some C) uc u =
      some { handle_audio_settings db u.user_id uc with
             user_audio_tracks :=
               db.user_audio_tracks.filter (fun r => r.user_id != u.user_id) ++
                 [⟨u.user_id, ta.id⟩, ⟨u.user_id, tb.id⟩, ⟨u.user_id, tc.id⟩] } := by
    rw [save_audio_settings_eq, hall, hres]
    rfl
  refine ⟨_, hsave, ?_⟩
  have hchosen :
      (({ handle_audio_settings db u.user_id uc with
          user_audio_tracks :=
            db.user_audio_tracks.filter (fun r => r.user_id != u.user_id) ++
              [⟨u.user_id, ta.id⟩, ⟨u.user_id, tb.id⟩, ⟨u.user_id, tc.id⟩] }
          : DB).user_audio_tracks.filter
        (fun r => r.user_id == u.user_id)).map (fun r => r.track_id) =
      [ta.id, tb.id, tc.id] := by
    have := filter_user_rows db.user_audio_tracks
      [⟨u.user_id, ta.id⟩, ⟨u.user_id, tb.id⟩, ⟨u.user_id, tc.id⟩] u.user_id
      (resolvedRows_user hres)
    rw [this]
    rfl
  have hinj := List.inj_on_of_nodup_map hnodup
  have hTnodup : db.audio_tracks.Nodup := List.Nodup.of_map _ hnodup
  have hid_cases : ∀ x ∈ db.audio_tracks,
      x.id ∈ [ta.id, tb.id, tc.id] → x = ta ∨ x = tb ∨ x = tc := by
    intro x hx hid
    rcases List.mem_cons.mp hid with h | hid
    · exact Or.inl (hinj hx htaM h)
    rcases List.mem_cons.mp hid with h | hid
    · exact Or.inr (Or.inl (hinj hx htbM h))
    rcases List.mem_cons.mp hid with h | hid
    · exact Or.inr (Or.inr (hinj hx htcM h))
    · cases hid
  constructor
  · -- the playlist
    unfold get_tracks
    simp only [hchosen, handle_audio_settings_audio_tracks]
    have hfeq : (db.audio_tracks.filter
        (fun t => [ta.id, tb.id, tc.id].contains t.id && t.is_music == 1)).Perm
        [ta, tb] := by
      rw [List.perm_ext_iff_of_nodup (hTnodup.filter _) ?nd]
      case nd =>
        simp only [List.nodup_cons, List.mem_singleton, List.nodup_nil,
          and_true, List.not_mem_nil, not_false_eq_true]
        intro heq
        exact hAB (htA ▸ htB ▸ congrArg AudioTracks.title heq)
      intro x
      simp only [List.mem_filter, Bool.and_eq_true, beq_iff_eq,
        List.elem_eq_mem, decide_eq_true_eq, List.mem_cons,
        List.mem_singleton, List.not_mem_nil, or_false]
      constructor
      · rintro ⟨hx, hid, hm⟩
        rcases hid_cases x hx (by simpa using hid) with h | h | h
        · exact Or.inl h
        · exact Or.inr h
        · subst h; rw [htc] at hm; cases hm
      · rintro (h | h)
        · subst h
          exact ⟨htaM, Or.inl rfl, hta⟩
        · subst h
          exact ⟨htbM, Or.inr (Or.inl rfl), htb⟩
    have := hfeq.map (fun t => t.title ++ ".mp3")
    simp only [List.map_cons, List.map_nil, htA, htB] at this
    exact this
  · -- the sfx choice
    unfold get_tracks
    simp only [hchosen, handle_audio_settings_audio_tracks]
    have hfind : db.audio_tracks.find?
        (fun t => [ta.id, tb.id, tc.id].contains t.id && t.is_music == 0) =
        some tc := by
      cases hf : db.audio_tracks.find?
          (fun t => [ta.id, tb.id, tc.id].contains t.id && t.is_music == 0) with
      | none =>
          exfalso
          have := List.find?_eq_none.mp hf tc htcM
          apply this
          simp [htc]
      | some x =>
          have hp := List.find?_some hf
          have hxM := List.mem_of_find?_eq_some hf
          simp only [Bool.and_eq_true, beq_iff_eq, List.elem_eq_mem,
            decide_eq_true_eq] at hp
          rcases hid_cases x hxM (by simpa using hp.1) with h | h | h
          · subst h; rw [hta] at hp; cases hp.2
          · subst h; rw [htb] at hp; cases hp.2
          · rw [h]
    rw [hfind]
    simp [htC]

/-- Witness for the amended C1 at a concrete catalog and user. -/
theorem roundtrip_save_read_witness :
    ∃ db', save_audio_settings ⟨[⟨1, "A", 1⟩, ⟨2, "B", 1⟩, ⟨3, "C", 0⟩],
        [], [], 4⟩ (some ["A", "B"]) (some "C")
        ⟨true, some 40, true, some 40⟩ ⟨1⟩ = some db' ∧
      (get_tracks db' 1).1.Perm ["A" ++ ".mp3", "B" ++ ".mp3"] ∧
      (get_tracks db' 1).2 = some ("C" ++ ".wav") :=
  roundtrip_save_read ⟨[⟨1, "A", 1⟩, ⟨2, "B", 1⟩, ⟨3, "C", 0⟩], [], [], 4⟩
    ⟨1⟩ ⟨true, some 40, true, some 40⟩ "A" "B" "C"
    ⟨1, "A", 1⟩ ⟨2, "B", 1⟩ ⟨3, "C", 0⟩
    (by decide) (by decide) (by decide) (by decide) (by decide) (by decide)
    (by decide) (by decide) (by decide) (by decide) (by decide) (by decide)

/-- Claim C10: the writer resolves a submitted choice by its stem, so
appending `".mp3"` or `".wav"` to any choice leaves the inserted selection
row unchanged; and a catalog title that itself contains a `"."` can never be
the resolved row, because every stem is dot-free. -/
theorem resolution_by_stem :
    (∀ (db : DB) (T : String) (uid : Nat),
        create_new_user_audio_record db T uid =
            create_new_user_audio_record db (T ++ ".mp3") uid ∧
          create_new_user_audio_record db T uid =
            create_new_user_audio_record db (T ++ ".wav") uid) ∧
      ∀ (db : DB) (choice : String) (t : AudioTracks),
        '.' ∈ t.title.data →
        db.audio_tracks.find? (fun t' => t'.title == choiceStem choice) ≠
          some t := by
  constructor
  · intro db T uid
    constructor
    · unfold create_new_user_audio_record
      rw [choiceStem_append T ".mp3" (by decide)]
    · unfold create_new_user_audio_record
      rw [choiceStem_append T ".wav" (by decide)]
  · intro db choice t hdot hfind
    have := List.find?_some hfind
    simp only [beq_iff_eq] at this
    exact choiceStem_no_dot choice (this ▸ hdot)

/-- Witness for C10 at concrete stores: saving `"T"` and `"T" ++ ".mp3"` /
`"T" ++ ".wav"` insert the same row, and the dotted catalog title `"a.b"`
is never found by the stem lookup. -/
theorem resolution_by_stem_witness :
    (create_new_user_audio_record ⟨[⟨1, "T", 1⟩], [], [], 2⟩ "T" 7 =
        create_new_user_audio_record ⟨[⟨1, "T", 1⟩], [], [], 2⟩
          ("T" ++ ".mp3") 7 ∧
      create_new_user_audio_record ⟨[⟨1, "T", 1⟩], [], [], 2⟩ "T" 7 =
        create_new_user_audio_record ⟨[⟨1, "T", 1⟩], [], [], 2⟩
          ("T" ++ ".wav") 7) ∧
      (⟨[⟨1, "a.b", 1⟩], [], [], 2⟩ : DB).audio_tracks.find?
          (fun t' => t'.title == choiceStem "a.b") ≠ some ⟨1, "a.b", 1⟩ :=
  ⟨resolution_by_stem.1 ⟨[⟨1, "T", 1⟩], [], [], 2⟩ "T" 7,
   resolution_by_stem.2 ⟨[⟨1, "a.b", 1⟩], [], [], 2⟩ "a.b" ⟨1, "a.b", 1⟩
     (by decide)⟩

/-- Witness for C9: a concrete store whose settings row for user 1 has
`music_on = true` and `music_vol = None`. -/
theorem handle_vol_none_fault_witness :
    handle_vol true none = none ∧
      start_audio ⟨[], [], [⟨1, true, none, true, none⟩], 0⟩ 1 = none :=
  ⟨handle_vol_none_fault.1,
   handle_vol_none_fault.2 ⟨[], [], [⟨1, true, none, true, none⟩], 0⟩ 1
     (by decide) (by decide)⟩
